import Mathlib

/-!
Verification development for `ffmpeg-batch.py`, a wrapper around ffmpeg that
processes files in batch according to presets.

The embedding models:
- filesystem paths as lists of components (`Path`),
- the filesystem seen by the script as a tree of named nodes (`Node`),
- Python exceptions relevant to the script (`PyExc`),
- `pathlib`'s suffix manipulation (`py_suffix`, `with_suffix`, `relative_to`),
- the target-planning code (`Targets.__init__` and its helpers),
- the batch executor `doConvert` and the top-level `main` control flow.

External processes (ffprobe / ffmpeg) are modelled by an environment `Env`
mapping input paths to their observable behaviour (probe output, progress
ticks, reported failure).  Media durations are modelled as rationals.
-/

namespace FfmpegBatch

set_option autoImplicit false

/-- A filesystem path, as its list of components (drive/root abstracted away). -/
abbrev Path := List String

/-- The Python exceptions that the script's code paths can raise.
`fatal` models the script's own `error()` helper, which prints a message and
calls `sys.exit(1)`. -/
inductive PyExc where
  | fatal (msg : String)
  | ffmpegError (message : String) (arguments : List String)
  | fileNotFoundError
  | jsonDecodeError
  | keyError
  | typeError
  | indexError
  | valueError
deriving DecidableEq, Repr

/-! ### pathlib suffix handling -/

/-- Index of the last `'.'` in a list of characters (CPython `str.rfind('.')`),
`none` when absent. -/
def rfind_dot (cs : List Char) : Option Nat :=
  match cs.reverse.findIdx? (· == '.') with
  | some j => some (cs.length - 1 - j)
  | none => none

/-- `PurePath.suffix`: the final extension of a file name, per CPython: the
slice from the last dot when that dot is neither the first nor the last
character, otherwise the empty string. -/
def py_suffix (name : String) : String :=
  let cs := name.toList
  match rfind_dot cs with
  | some i => if 0 < i ∧ i < cs.length - 1 then String.mk (cs.drop i) else ""
  | none => ""

/-- `s.startswith('.')`: the first character is a dot. -/
def starts_with_dot (s : String) : Bool :=
  match s.toList with
  | '.' :: _ => true
  | _ => false

/-- `PurePath.with_suffix` restricted to a single name component: rejects a
suffix containing the separator, a non-empty suffix not starting with `'.'`,
the bare `"."` suffix, and an empty name; otherwise appends the suffix when
the name has none and replaces the final suffix when it has one. -/
def with_suffix (name : String) (sfx : String) : Except PyExc String :=
  if sfx.toList.contains '/' then .error PyExc.valueError
  else if (sfx ≠ "" ∧ ¬ starts_with_dot sfx) ∨ sfx = "." then .error PyExc.valueError
  else if name = "" then .error PyExc.valueError
  else
    let old := py_suffix name
    if old = "" then .ok (name ++ sfx)
    else .ok (String.mk (name.toList.take (name.toList.length - old.toList.length)) ++ sfx)

/-- `with_suffix` lifted to a whole path: it acts on the final component
(`PurePath.name`); an empty path has no name and raises `ValueError`. -/
def path_with_suffix : Path → String → Except PyExc Path
  | [], _ => .error PyExc.valueError
  | [n], ext => (with_suffix n ext).map (fun s => [s])
  | c :: c' :: rest, ext => (path_with_suffix (c' :: rest) ext).map (fun p => c :: p)

/-- `PurePath.relative_to`: drops the base when it is a component-wise
prefix of the path, and raises `ValueError` otherwise. -/
def relative_to (p base : Path) : Except PyExc Path :=
  if base.isPrefixOf p then .ok (p.drop base.length) else .error PyExc.valueError

/-! ### Filesystem model -/

mutual
/-- A filesystem node: a regular file or a directory whose entries are listed
in directory-iteration order (the order `Path.glob('*')` yields them). -/
inductive Node where
  | file : Node
  | dir (entries : Entries) : Node

/-- A directory listing: named child nodes in iteration order. -/
inductive Entries where
  | nil : Entries
  | cons (name : String) (node : Node) (rest : Entries) : Entries
end

/-- Find the child node with the given name, first match wins. -/
def Entries.lookup : Entries → String → Option Node
  | Entries.nil, _ => none
  | Entries.cons nm nd rest, c => if nm = c then some nd else rest.lookup c

/-- Concatenation of directory listings. -/
def Entries.append : Entries → Entries → Entries
  | Entries.nil, es => es
  | Entries.cons nm nd rest, es => Entries.cons nm nd (rest.append es)

instance : Append Entries := ⟨Entries.append⟩

/-- A directory listing as a list of (name, node) pairs, in iteration order. -/
def Entries.toList : Entries → List (String × Node)
  | Entries.nil => []
  | Entries.cons nm nd rest => (nm, nd) :: rest.toList

/-- Resolve a path against a node, component by component (recursion is
structural on the path). -/
def resolve_from : Path → Node → Option Node
  | [], n => some n
  | _ :: _, Node.file => none
  | c :: p, Node.dir es =>
    match es.lookup c with
    | some n => resolve_from p n
    | none => none

/-- Resolve a path against a node, component by component. -/
def Node.resolve (n : Node) (p : Path) : Option Node :=
  resolve_from p n

/-- `Path.is_file()`: the path resolves to a regular file. -/
def isFile (fs : Node) (p : Path) : Bool :=
  match fs.resolve p with
  | some Node.file => true
  | _ => false

/-- `Path.is_dir()`: the path resolves to a directory. -/
def isDir (fs : Node) (p : Path) : Bool :=
  match fs.resolve p with
  | some (Node.dir _) => true
  | _ => false

/-- `Path.exists()`: the path resolves to something. -/
def pathExists (fs : Node) (p : Path) : Bool :=
  (fs.resolve p).isSome

/-! ### JSON values and Python float conversion, for the ffprobe output -/

/-- A JSON value, as produced by `json.loads` on ffprobe's output. -/
inductive JVal where
  | num (q : ℚ)
  | str (s : String)
  | arr (elems : List JVal)
  | obj (fields : List (String × JVal))
  | null
deriving Repr

/-- Fold a digit string into a number, `none` on a non-digit or empty input. -/
def digits_to_nat (cs : List Char) : Option Nat :=
  if cs = [] then none
  else cs.foldl (fun acc c =>
    acc.bind fun n => if c.isDigit then some (10 * n + (c.toNat - 48)) else none) (some 0)

/-- Parse an unsigned decimal literal `digits [ '.' digits ]` as a rational. -/
def parse_decimal (cs : List Char) : Option ℚ :=
  let ip := cs.takeWhile (·.isDigit)
  let rest := cs.dropWhile (·.isDigit)
  match rest with
  | [] => (digits_to_nat ip).map (fun n => (n : ℚ))
  | '.' :: frac =>
    if frac.all (·.isDigit) ∧ (ip ≠ [] ∨ frac ≠ []) then
      let ipn := (digits_to_nat ip).getD 0
      let fpn := (digits_to_nat frac).getD 0
      some ((ipn : ℚ) + (fpn : ℚ) / ((10 : ℚ) ^ frac.length))
    else none
  | _ => none

/-- Python `float(s)` on a string, modelled for plain signed decimal literals
(the shape ffprobe emits for durations); exotic forms (exponents, `inf`,
`nan`, underscores) are not modelled and map to `ValueError`. -/
def py_float_of_string (s : String) : Option ℚ :=
  let cs := ((s.toList.dropWhile (·.isWhitespace)).reverse.dropWhile (·.isWhitespace)).reverse
  match cs with
  | '-' :: rest => (parse_decimal rest).map (fun q => -q)
  | '+' :: rest => parse_decimal rest
  | _ => parse_decimal cs

/-- Python `float(v)` on a decoded JSON value. -/
def py_float : JVal → Except PyExc ℚ
  | JVal.num q => .ok q
  | JVal.str s =>
    match py_float_of_string s with
    | some q => .ok q
    | none => .error PyExc.valueError
  | _ => .error PyExc.typeError

/-- Python `v[key]` subscription with a string key. -/
def jGet (v : JVal) (key : String) : Except PyExc JVal :=
  match v with
  | JVal.obj fields =>
    match fields.lookup key with
    | some w => .ok w
    | none => .error PyExc.keyError
  | _ => .error PyExc.typeError

/-- Python `v[0]` subscription with an integer index. -/
def jIndexZero (v : JVal) : Except PyExc JVal :=
  match v with
  | JVal.arr elems =>
    match elems.head? with
    | some w => .ok w
    | none => .error PyExc.indexError
  | JVal.obj _ => .error PyExc.keyError
  | JVal.str s =>
    match s.toList.head? with
    | some c => .ok (JVal.str (String.mk [c]))
    | none => .error PyExc.indexError
  | _ => .error PyExc.typeError

/-! ### External-process environment -/

/-- The observable behaviour of one `ffprobe.execute()` call: either it raises
an exception (`FFmpegError` on a non-zero exit, `FileNotFoundError` when the
executable is missing), or it returns output which `json.loads` either fails
to decode (`none`) or decodes to a JSON value. -/
inductive ProbeExec where
  | raises (e : PyExc)
  | output (decoded : Option JVal)

/-- The observable behaviour of one `ffmpeg.execute()` conversion: the
progress ticks it reports (`progress.time.seconds` values, in order) and,
when it fails, the `FFmpegError`'s message and arguments. -/
structure ConvBehavior where
  ticks : List ℚ
  failure : Option (String × List String)

/-- The environment of a run: the filesystem and the behaviour of the
external probe and converter processes, keyed by input path. -/
structure Env where
  fs : Node
  probe : Path → ProbeExec
  convert : Path → ConvBehavior

/-! ### Targets -/

/-- The planner's actions for a target (`Targets.Target.Action`). -/
inductive Action where
  | Create
  | Overwrite
  | Skip
deriving DecidableEq, Repr

/-- One unit of work (`Targets.Target`): input path, derived output path,
whether the output existed at planning time, the stored probe error message,
the planned action and the probed duration in seconds. -/
structure Target where
  input_path : Path
  output_path : Path
  output_exists : Bool
  error_msg : String := ""
  action : Action := Action.Skip
  duration_sec : ℚ := 0
deriving DecidableEq, Repr

/-- `Targets._generate_target`: derive the output path as
`output_dir.joinpath(input_path.relative_to(input_dir)).with_suffix(file_ext)`
and sample the output's existence. -/
def generate_target (env : Env) (input_dir output_dir input_path : Path)
    (file_ext : String) : Except PyExc Target := do
  let rel ← relative_to input_path input_dir
  let op ← path_with_suffix (output_dir ++ rel) file_ext
  .ok { input_path := input_path, output_path := op, output_exists := pathExists env.fs op }

mutual
/-- `Targets._get_list_off_files_in_directory`: walk the directory listing in
iteration order, collecting regular files, and when `recursive` is set
descending into subdirectories depth-first at their position in the listing. -/
def get_list_off_files_in_directory (root_path : Path) (recursive : Bool) :
    Entries → List Path
  | Entries.nil => []
  | Entries.cons nm nd rest =>
    entry_files root_path recursive nm nd ++
      get_list_off_files_in_directory root_path recursive rest

/-- The files one directory entry contributes: a regular file contributes
itself; a subdirectory contributes its recursive listing when `recursive`
is set and nothing otherwise. -/
def entry_files (root_path : Path) (recursive : Bool) (nm : String) : Node → List Path
  | Node.file => [root_path ++ [nm]]
  | Node.dir es =>
    if recursive then get_list_off_files_in_directory (root_path ++ [nm]) recursive es
    else []
end

/-- The `for i in ip` loop body of `_initialize_file_paths`'s directory case:
generate one target per discovered file, propagating any exception. -/
def gen_targets (env : Env) (input_dir output_dir : Path) (file_ext : String) :
    List Path → Except PyExc (List Target)
  | [] => .ok []
  | i :: rest => do
    let t ← generate_target env input_dir output_dir i file_ext
    let ts ← gen_targets env input_dir output_dir file_ext rest
    .ok (t :: ts)

/-- `Targets._initialize_file_paths`: for each input specification, a file
contributes one target rooted at its parent directory, a directory contributes
one target per discovered file rooted at the directory itself, and a path that
is neither is a fatal `error(...)` (printed message plus `sys.exit(1)`). -/
def init_file_paths (env : Env) (input_list : List Path) (output : Path)
    (recursive : Bool) (file_ext : String) : Except PyExc (List Target) :=
  match input_list with
  | [] => .ok []
  | pt :: rest =>
    match env.fs.resolve pt with
    | some Node.file => do
      let t ← generate_target env pt.dropLast output pt file_ext
      let ts ← init_file_paths env rest output recursive file_ext
      .ok (t :: ts)
    | some (Node.dir es) => do
      let ip := get_list_off_files_in_directory pt recursive es
      let ts ← gen_targets env pt output file_ext ip
      let ts' ← init_file_paths env rest output recursive file_ext
      .ok (ts ++ ts')
    | none =>
      .error (PyExc.fatal ("input path \"" ++ String.intercalate "/" pt ++ "\" does not exist"))

/-- `Targets.get_video_duration_in_sec`: run ffprobe on the input, decode its
JSON output and return `float(media['streams'][0]['duration'])`; every failure
raises the corresponding Python exception. -/
def get_video_duration_in_sec (env : Env) (path : Path) : Except PyExc ℚ :=
  match env.probe path with
  | ProbeExec.raises e => .error e
  | ProbeExec.output none => .error PyExc.jsonDecodeError
  | ProbeExec.output (some media) => do
    let streams ← jGet media "streams"
    let s0 ← jIndexZero streams
    let d ← jGet s0 "duration"
    py_float d

/-- `exception.message.split(':', 1)[1].lstrip()`: everything after the first
colon, left-stripped; raises `IndexError` when the message has no colon. -/
def split_colon_tail (s : String) : Except PyExc String :=
  match s.toList.dropWhile (· != ':') with
  | [] => .error PyExc.indexError
  | _ :: tail => .ok (String.mk (tail.dropWhile (·.isWhitespace)))

/-- The body of the metadata/classification loop in `Targets.__init__` for one
target: reset the action to Skip, probe the duration catching only
`FFmpegError` (storing the message part after the first colon), then pick
Create / Overwrite / Skip from output existence and the force flag.  Returns
the updated target and its contribution to the create/overwrite counters. -/
def classify_one (env : Env) (force : Bool) (x0 : Target) :
    Except PyExc (Target × Nat × Nat) :=
  let x := { x0 with action := Action.Skip }
  match get_video_duration_in_sec env x.input_path with
  | .error (PyExc.ffmpegError msg _args) =>
    match split_colon_tail msg with
    | .ok tail => .ok ({ x with error_msg := tail }, 0, 0)
    | .error e => .error e
  | .error e => .error e
  | .ok d =>
    let x := { x with duration_sec := d }
    if !x.output_exists then .ok ({ x with action := Action.Create }, 1, 0)
    else if x.output_exists && force then .ok ({ x with action := Action.Overwrite }, 0, 1)
    else .ok (x, 0, 0)

/-- The metadata/classification loop of `Targets.__init__` over the whole
target list, accumulating the create and overwrite counters.  An exception
other than the caught `FFmpegError` propagates and aborts planning. -/
def classify_loop (env : Env) (force : Bool) :
    List Target → Except PyExc (List Target × Nat × Nat)
  | [] => .ok ([], 0, 0)
  | x :: rest => do
    let (y, dc, dov) ← classify_one env force x
    let (res, c, ov) ← classify_loop env force rest
    .ok (y :: res, dc + c, dov + ov)

/-- The state of a `Targets` object after `__init__`. -/
structure TargetsState where
  data : List Target
  files_to_create : Nat
  files_to_overwrite : Nat
  files_to_skip : Nat
deriving DecidableEq, Repr

/-- `Targets.__init__`: build the target list from the input specifications,
classify every target, and set `files_to_skip = count - create - overwrite`. -/
def Targets_init (env : Env) (input_list : List Path) (output : Path)
    (recursive force : Bool) (file_ext : String) : Except PyExc TargetsState := do
  let d0 ← init_file_paths env input_list output recursive file_ext
  let (data, c, ov) ← classify_loop env force d0
  .ok { data := data, files_to_create := c, files_to_overwrite := ov,
        files_to_skip := data.length - c - ov }

/-! ### Batch executor -/

/-- One invocation of the external converter, as built in `doConvert`:
`FFmpeg().option("y").input(...).output(..., options=preset.ffmpeg_args)`. -/
structure Invocation where
  global_options : List String
  input : Path
  output : Path
  options : List (String × String)
deriving DecidableEq, Repr

/-- The invocation `doConvert` builds for a target. -/
def mk_ffmpeg (preset_args : List (String × String)) (t : Target) : Invocation :=
  { global_options := ["y"], input := t.input_path, output := t.output_path,
    options := preset_args }

/-- `sum([x.duration_sec for x in targets if x.action != Skip])`. -/
def total_time_sec (targets : List Target) : ℚ :=
  ((targets.filter (fun x => x.action != Action.Skip)).map (fun x => x.duration_sec)).sum

/-- The observable outcome of `doConvert`: the overall-progress events (the
`completed` values written to the overall task, in emission order), the
converter invocations attempted, and the (message, arguments) pairs logged
for failed conversions. -/
structure ConvRun where
  overall_events : List ℚ
  attempts : List Invocation
  fail_logs : List (String × List String)
deriving DecidableEq, Repr

/-- The target loop of `doConvert`, carrying `accumulated_time`: Skip targets
are passed over; otherwise the converter is invoked, each progress tick `t`
emits an overall event `accumulated_time + t`, a successful completion folds
the target's duration into `accumulated_time`, and an `FFmpegError` is caught
and logged, leaving `accumulated_time` unchanged. -/
def do_convert_loop (env : Env) (preset_args : List (String × String)) :
    List Target → ℚ → List ℚ × List Invocation × List (String × List String)
  | [], _ => ([], [], [])
  | t :: rest, acc =>
    if t.action = Action.Skip then do_convert_loop env preset_args rest acc
    else
      let b := env.convert t.input_path
      let evs := b.ticks.map (fun s => acc + s)
      match b.failure with
      | none =>
        let r := do_convert_loop env preset_args rest (acc + t.duration_sec)
        (evs ++ r.1, mk_ffmpeg preset_args t :: r.2.1, r.2.2)
      | some pr =>
        let r := do_convert_loop env preset_args rest acc
        (evs ++ r.1, mk_ffmpeg preset_args t :: r.2.1, pr :: r.2.2)

/-- `doConvert`: run the target loop from `accumulated_time = 0` and finish
with the unconditional final overall update `completed = total_time_sec`. -/
def doConvert (env : Env) (preset_args : List (String × String))
    (targets : List Target) : ConvRun :=
  let r := do_convert_loop env preset_args targets 0
  { overall_events := r.1 ++ [total_time_sec targets], attempts := r.2.1,
    fail_logs := r.2.2 }

/-! ### Top-level control flow -/

/-- `ask_for_confirmation`: computing the digit count calls
`math.log10(max(...))`, which raises `ValueError` when all three counters are
zero; with nothing to process it returns `False` without prompting, otherwise
it returns the user's y/n answer. -/
def ask_for_confirmation (files_to_create files_to_overwrite files_to_skip : Nat)
    (user_yes : Bool) : Except PyExc Bool :=
  if max files_to_create (max files_to_overwrite files_to_skip) = 0 then
    .error PyExc.valueError
  else if files_to_create + files_to_overwrite = 0 then .ok false
  else .ok user_yes

/-- How a run of `main` ends. -/
inductive RunOutcome where
  | fatal (code : Nat) (msg : String)
  | uncaught (e : PyExc)
  | noConversion (st : TargetsState)
  | converted (st : TargetsState) (run : ConvRun)

/-- The `main` control flow after argument parsing and preset loading: check
that the output directory exists, build the `Targets`, bail out on an empty
target list, ask for confirmation, and only on a yes run `doConvert`. -/
def runMain (env : Env) (input_list : List Path) (output : Path)
    (recursive force : Bool) (file_ext : String)
    (preset_args : List (String × String)) (user_yes : Bool) : RunOutcome :=
  if !(isDir env.fs output) then
    .fatal 1 ("output path \"" ++ String.intercalate "/" output ++
      "\" does not exist, create output path before running the script")
  else
    match Targets_init env input_list output recursive force file_ext with
    | .error (PyExc.fatal msg) => .fatal 1 msg
    | .error e => .uncaught e
    | .ok ts =>
      if ts.data.length = 0 then .fatal 1 "no valid input file specified"
      else
        match ask_for_confirmation ts.files_to_create ts.files_to_overwrite
            ts.files_to_skip user_yes with
        | .error e => .uncaught e
        | .ok true => .converted ts (doConvert env preset_args ts.data)
        | .ok false => .noConversion ts

/-! ### Derived notions used in the statements -/

/-- A list of rationals is non-decreasing from left to right.  (Stated as a
boolean so concrete event streams can be checked by evaluation.) -/
def nondecreasing : List ℚ → Bool
  | [] => true
  | [_] => true
  | a :: b :: rest => decide (a ≤ b) && nondecreasing (b :: rest)

/-! ### Fixtures for witnesses and counterexamples -/

/-- A well-formed ffprobe JSON document with the given duration. -/
def probe_json (d : ℚ) : JVal :=
  JVal.obj [("streams", JVal.arr [JVal.obj [("duration", JVal.num d)]])]

/-- The spec's running example directory: `a.mov`, `b.mov`, `sub/c.mov`. -/
def demo_entries : Entries :=
  Entries.cons "a.mov" Node.file (Entries.cons "b.mov" Node.file
    (Entries.cons "sub" (Node.dir (Entries.cons "c.mov" Node.file Entries.nil)) Entries.nil))

/-- A filesystem with the demo input directory, a lone input file, and an
output directory that already holds `a.mp4`. -/
def demo_fs : Node :=
  Node.dir (Entries.cons "videos" (Node.dir demo_entries)
    (Entries.cons "lone.mov" Node.file
      (Entries.cons "out" (Node.dir (Entries.cons "a.mp4" Node.file Entries.nil)) Entries.nil)))

/-- An environment over `demo_fs` in which every probe succeeds with
duration 10 and every conversion succeeds after a single tick at 3. -/
def demo_env : Env :=
  { fs := demo_fs,
    probe := fun _ => ProbeExec.output (some (probe_json 10)),
    convert := fun _ => { ticks := [3], failure := none } }

/-- The state `Targets.__init__` reaches on the demo environment with input
`videos/`, output `out/`, non-recursive, force unset: `a.mp4` already exists
so `a.mov` is Skip, `b.mov` is Create. -/
def demo_plan_state : TargetsState :=
  { data := [
      { input_path := ["videos", "a.mov"], output_path := ["out", "a.mp4"],
        output_exists := true, action := Action.Skip, duration_sec := 10 },
      { input_path := ["videos", "b.mov"], output_path := ["out", "b.mp4"],
        output_exists := false, action := Action.Create, duration_sec := 10 }],
    files_to_create := 1, files_to_overwrite := 0, files_to_skip := 1 }

/-- The demo `b.mov` target as `_initialize_file_paths` creates it. -/
def target_b0 : Target :=
  { input_path := ["videos", "b.mov"], output_path := ["out", "b.mp4"],
    output_exists := false }

/-- The demo `b.mov` target after classification: Create, duration 10. -/
def target_b1 : Target :=
  { target_b0 with action := Action.Create, duration_sec := 10 }

/-- The demo target list before classification. -/
def demo_d0 : List Target :=
  [{ input_path := ["videos", "a.mov"], output_path := ["out", "a.mp4"],
     output_exists := true },
   target_b0]

/-- A target for a probe-failing input. -/
def target_bad : Target :=
  { input_path := ["bad.mov"], output_path := ["out", "bad.mp4"],
    output_exists := false }

/-- An environment whose probe yields output that `json.loads` cannot decode
for `bad.mov`, and a well-formed document (duration 10) for anything else. -/
def malformed_env : Env :=
  { fs := demo_fs,
    probe := fun p =>
      if p = ["bad.mov"] then ProbeExec.output none
      else ProbeExec.output (some (probe_json 10)),
    convert := fun _ => { ticks := [3], failure := none } }

/-- An environment whose probe raises `FFmpegError` (non-zero ffprobe exit)
for `bad.mov`, and succeeds with duration 10 for anything else. -/
def ffmpeg_err_env : Env :=
  { fs := demo_fs,
    probe := fun p =>
      if p = ["bad.mov"] then
        ProbeExec.raises
          (PyExc.ffmpegError "bad.mov: Invalid data found when processing input"
            ["ffprobe", "bad.mov"])
      else ProbeExec.output (some (probe_json 10)),
    convert := fun _ => { ticks := [3], failure := none } }

/-- Two Create-classified targets of duration 10 for the executor
counterexample. -/
def fail_target_1 : Target :=
  { input_path := ["f1.mov"], output_path := ["out", "f1.mp4"],
    output_exists := false, action := Action.Create, duration_sec := 10 }

/-- Companion target converted after the failing one. -/
def fail_target_2 : Target :=
  { input_path := ["f2.mov"], output_path := ["out", "f2.mp4"],
    output_exists := false, action := Action.Create, duration_sec := 10 }

/-- An environment in which converting `f1.mov` reports a progress tick at 7
and then fails, while any other conversion reports a tick at 1 and
succeeds. -/
def failing_env : Env :=
  { fs := demo_fs,
    probe := fun _ => ProbeExec.output (some (probe_json 10)),
    convert := fun p =>
      if p = ["f1.mov"] then
        { ticks := [7], failure := some ("f1.mov: conversion failed", ["ffmpeg"]) }
      else { ticks := [1], failure := none } }

/-! ### Basic lemmas -/

@[simp]
theorem exc_ok_bind {α β : Type} (a : α) (f : α → Except PyExc β) :
    ((Except.ok a : Except PyExc α) >>= f) = f a := rfl

@[simp]
theorem exc_error_bind {α β : Type} (e : PyExc) (f : α → Except PyExc β) :
    ((Except.error e : Except PyExc α) >>= f) = Except.error e := rfl

@[simp]
theorem exc_map_ok {α β : Type} (a : α) (f : α → β) :
    (Except.ok a : Except PyExc α).map f = Except.ok (f a) := rfl

@[simp]
theorem exc_map_error {α β : Type} (e : PyExc) (f : α → β) :
    (Except.error e : Except PyExc α).map f = Except.error e := rfl

@[simp]
theorem Entries.append_eq (es₁ es₂ : Entries) : es₁ ++ es₂ = es₁.append es₂ := rfl

@[simp]
theorem Entries.nil_append (es : Entries) : Entries.nil.append es = es := rfl

@[simp]
theorem Entries.cons_append (nm : String) (nd : Node) (rest es : Entries) :
    (Entries.cons nm nd rest).append es = Entries.cons nm nd (rest.append es) := rfl

/-! ### Claim C10 -/

/-- C10: Extension replacement acts only on the final suffix of the input
filename: `a.tar.gz` keeps the earlier suffixes (`a.tar` plus the preset
extension), a filename with no suffix has the preset extension appended, and
a non-empty preset extension not beginning with the separator is rejected
with `ValueError`. -/
theorem claim_C10 :
    (with_suffix "a.tar.gz" ".mp4" = .ok "a.tar.mp4") ∧
    (with_suffix "archive" ".mp4" = .ok "archive.mp4") ∧
    (∀ name ext, ext ≠ "" → starts_with_dot ext = false →
      with_suffix name ext = .error PyExc.valueError) := by
  refine ⟨rfl, rfl, ?_⟩
  intro name ext hne hdot
  unfold with_suffix
  split
  · rfl
  · split
    · rfl
    · rename_i h2
      exact absurd (Or.inl ⟨hne, by simp [hdot]⟩) h2

/-! ### Claim C6 -/

/-- With the recursive flag unset, the listing keeps exactly the direct-child
regular files, in iteration order; subdirectories contribute nothing. -/
theorem glf_nonrecursive (root : Path) : ∀ es : Entries,
    get_list_off_files_in_directory root false es =
      es.toList.filterMap (fun e =>
        match e.2 with
        | Node.file => some (root ++ [e.1])
        | Node.dir _ => none)
  | Entries.nil => rfl
  | Entries.cons _nm Node.file rest => by
    simp [get_list_off_files_in_directory, entry_files, Entries.toList,
      glf_nonrecursive root rest]
  | Entries.cons _nm (Node.dir _es) rest => by
    simp [get_list_off_files_in_directory, entry_files, Entries.toList,
      glf_nonrecursive root rest]

/-- With the recursive flag set, a subdirectory's files appear contiguously at
the subdirectory's position in the listing, between the files contributed by
earlier and later siblings: depth-first descent in iteration order. -/
theorem glf_recursive_dir (root : Path) (nm : String) (des es₂ : Entries) :
    ∀ es₁ : Entries,
    get_list_off_files_in_directory root true (es₁.append (Entries.cons nm (Node.dir des) es₂)) =
      get_list_off_files_in_directory root true es₁ ++
        (get_list_off_files_in_directory (root ++ [nm]) true des ++
          get_list_off_files_in_directory root true es₂)
  | Entries.nil => by simp [get_list_off_files_in_directory, entry_files]
  | Entries.cons nm' nd' rest => by
    simp [get_list_off_files_in_directory, glf_recursive_dir root nm des es₂ rest,
      List.append_assoc]

/-- C6: for a directory input, the recursive flag makes subdirectories be
descended into depth-first at their position in the directory-listing
iteration order, while with the flag unset only direct-child regular files
are included and subdirectories contribute no targets; checked also on the
spec's `a.mov`, `b.mov`, `sub/c.mov` example. -/
theorem claim_C6 :
    (∀ root es, get_list_off_files_in_directory root false es =
      es.toList.filterMap (fun e =>
        match e.2 with
        | Node.file => some (root ++ [e.1])
        | Node.dir _ => none)) ∧
    (∀ root nm des es₁ es₂,
      get_list_off_files_in_directory root true
          (es₁ ++ Entries.cons nm (Node.dir des) es₂) =
        get_list_off_files_in_directory root true es₁ ++
          (get_list_off_files_in_directory (root ++ [nm]) true des ++
            get_list_off_files_in_directory root true es₂)) ∧
    (get_list_off_files_in_directory ["videos"] false demo_entries =
      [["videos", "a.mov"], ["videos", "b.mov"]]) ∧
    (get_list_off_files_in_directory ["videos"] true demo_entries =
      [["videos", "a.mov"], ["videos", "b.mov"], ["videos", "sub", "c.mov"]]) :=
  ⟨fun root es => glf_nonrecursive root es,
   fun root nm des es₁ es₂ => glf_recursive_dir root nm des es₂ es₁,
   by decide, by decide⟩

/-! ### Claim C2 -/

/-- `relative_to` on a path lying under its base drops the base. -/
theorem relative_to_append (base r : Path) : relative_to (base ++ r) base = .ok r := by
  have h : base.isPrefixOf (base ++ r) = true := by
    rw [List.isPrefixOf_iff_prefix]
    exact List.prefix_append base r
  simp [relative_to, h, List.drop_left]

/-- `path_with_suffix` acts on the final component and keeps the prefix. -/
theorem path_with_suffix_concat (ext : String) : ∀ (l : Path) (n : String),
    path_with_suffix (l ++ [n]) ext = (with_suffix n ext).map (fun s => l ++ [s])
  | [], n => by
    cases h : with_suffix n ext <;> simp [path_with_suffix, h]
  | c :: l, n => by
    have ih := path_with_suffix_concat ext l n
    rcases hl : l ++ [n] with _ | ⟨c', l'⟩
    · exact absurd hl (by simp)
    · rw [hl] at ih
      show path_with_suffix (c :: (l ++ [n])) ext = _
      rw [hl]
      show (path_with_suffix (c' :: l') ext).map (fun p => c :: p) = _
      rw [ih]
      cases with_suffix n ext <;> simp [Except.map]

/-- The planner's output-path formula, spelled out: for an input
`root ++ rest ++ [n]` discovered under `root`, the output is the output root,
then the relative directory part, then the name with its extension replaced;
the existence flag is sampled on that output path. -/
theorem generate_target_eq (env : Env) (root out rest : Path) (n ext n' : String)
    (h : with_suffix n ext = .ok n') :
    generate_target env root out (root ++ rest ++ [n]) ext =
      .ok { input_path := root ++ rest ++ [n],
            output_path := (out ++ rest) ++ [n'],
            output_exists := pathExists env.fs ((out ++ rest) ++ [n']) } := by
  unfold generate_target
  rw [List.append_assoc root rest [n], relative_to_append]
  show (path_with_suffix (out ++ (rest ++ [n])) ext).bind _ = _
  rw [← List.append_assoc out rest [n], path_with_suffix_concat, h]
  rfl

/-- C2: the planner maps each discovered input to the output root joined with
the input's path relative to its discovery root, final extension replaced by
the preset's; for a file-spec input (rooted at its parent directory) the
output lands flat in the output root. -/
theorem claim_C2 :
    (∀ (env : Env) (root out rest : Path) (n ext n' : String),
      with_suffix n ext = .ok n' →
      generate_target env root out (root ++ rest ++ [n]) ext =
        .ok { input_path := root ++ rest ++ [n],
              output_path := (out ++ rest) ++ [n'],
              output_exists := pathExists env.fs ((out ++ rest) ++ [n']) }) ∧
    (∀ (env : Env) (q : Path) (n : String) (out : Path) (ext n' : String)
      (recursive : Bool) (rest : List Path),
      env.fs.resolve (q ++ [n]) = some Node.file →
      with_suffix n ext = .ok n' →
      init_file_paths env ((q ++ [n]) :: rest) out recursive ext =
        (init_file_paths env rest out recursive ext).map
          (fun ts => { input_path := q ++ [n], output_path := out ++ [n'],
                       output_exists := pathExists env.fs (out ++ [n']) } :: ts)) := by
  constructor
  · exact fun env root out rest n ext n' h => generate_target_eq env root out rest n ext n' h
  · intro env q n out ext n' recursive rest hres h
    have hg := generate_target_eq env q out [] n ext n' h
    simp only [List.append_nil] at hg
    simp only [init_file_paths, hres, List.dropLast_concat, hg]
    cases init_file_paths env rest out recursive ext <;> rfl

/-- Witness for C2: the file-spec clause applied to the lone input file of the
demo filesystem, whose output lands flat in the output root. -/
theorem claim_C2_witness :
    (demo_env.fs.resolve (([] : Path) ++ ["lone.mov"]) = some Node.file ∧
      with_suffix "lone.mov" ".mp4" = .ok "lone.mp4") ∧
    init_file_paths demo_env ((([] : Path) ++ ["lone.mov"]) :: []) ["out"] false ".mp4" =
      (init_file_paths demo_env [] ["out"] false ".mp4").map
        (fun ts =>
          { input_path := ([] : Path) ++ ["lone.mov"],
            output_path := ["out"] ++ ["lone.mp4"],
            output_exists := pathExists demo_env.fs (["out"] ++ ["lone.mp4"]) } :: ts) :=
  ⟨⟨rfl, rfl⟩, claim_C2.2 demo_env [] "lone.mov" ["out"] ".mp4" "lone.mp4" false [] rfl rfl⟩

/-! ### Classification lemmas shared by several claims -/

/-- When the probe succeeds, the loop body stores the duration and picks the
action from output existence and the force flag, bumping the matching
counter. -/
theorem classify_one_probe_ok (env : Env) (force : Bool) (x : Target) (d : ℚ)
    (h : get_video_duration_in_sec env x.input_path = .ok d) :
    classify_one env force x = .ok
      (if x.output_exists = false then
        ({ x with action := Action.Create, duration_sec := d }, 1, 0)
      else if force then
        ({ x with action := Action.Overwrite, duration_sec := d }, 0, 1)
      else ({ x with action := Action.Skip, duration_sec := d }, 0, 0)) := by
  unfold classify_one
  dsimp only
  rw [h]
  cases he : x.output_exists <;> cases force <;> simp [he]

/-- When the probe fails with an `FFmpegError` whose message splits at a
colon, the loop body catches it, stores the message tail, and leaves the
action at Skip and the duration untouched, with no counter bump. -/
theorem classify_one_probe_err (env : Env) (force : Bool) (x : Target)
    (msg : String) (args : List String) (tail : String)
    (h : get_video_duration_in_sec env x.input_path = .error (PyExc.ffmpegError msg args))
    (hs : split_colon_tail msg = .ok tail) :
    classify_one env force x =
      .ok ({ x with action := Action.Skip, error_msg := tail }, 0, 0) := by
  unfold classify_one
  dsimp only
  rw [h]
  dsimp only
  rw [hs]

/-- The loop body bumps the create/overwrite counters by at most one. -/
theorem classify_one_counts (env : Env) (force : Bool) (x y : Target) (dc dov : Nat)
    (h : classify_one env force x = .ok (y, dc, dov)) : dc + dov ≤ 1 := by
  unfold classify_one at h
  dsimp only at h
  split at h
  · split at h
    · simp [Prod.ext_iff] at h
      omega
    · simp at h
  · simp at h
  · split at h
    · simp [Prod.ext_iff] at h
      omega
    · split at h
      · simp [Prod.ext_iff] at h
        omega
      · simp [Prod.ext_iff] at h
        omega

/-- Inversion of the classification loop: the output list is as long as the
input list, the counters are bounded by it, and the target at each index is
exactly the loop body's result on the input target at that index. -/
theorem classify_loop_get (env : Env) (force : Bool) : ∀ (l res : List Target) (c ov : Nat),
    classify_loop env force l = .ok (res, c, ov) →
    res.length = l.length ∧ c + ov ≤ l.length ∧
    (∀ (i : Nat) (x : Target), l[i]? = some x → ∃ y dc dov,
      classify_one env force x = .ok (y, dc, dov) ∧ res[i]? = some y)
  | [], res, c, ov, h => by
    simp only [classify_loop] at h
    injection h with h'
    injection h' with h1 h'
    injection h' with h2 h3
    subst h1; subst h2; subst h3
    exact ⟨rfl, by omega, fun i x hx => by simp at hx⟩
  | x :: rest, res, c, ov, h => by
    simp only [classify_loop] at h
    cases hone : classify_one env force x with
    | error e => rw [hone] at h; simp at h
    | ok p =>
      obtain ⟨y, dc, dov⟩ := p
      rw [hone] at h
      dsimp only [exc_ok_bind] at h
      cases hrest : classify_loop env force rest with
      | error e => rw [hrest] at h; simp at h
      | ok q =>
        obtain ⟨res', c', ov'⟩ := q
        rw [hrest] at h
        dsimp only [exc_ok_bind] at h
        injection h with h'
        injection h' with h1 h'
        injection h' with h2 h3
        subst h1; subst h2; subst h3
        obtain ⟨hlen, hle, hidx⟩ :=
          classify_loop_get env force rest res' c' ov' hrest
        have hcnt := classify_one_counts env force x y dc dov hone
        refine ⟨by simp [hlen], by simp only [List.length_cons]; omega, ?_⟩
        intro i z hz
        cases i with
        | zero =>
          simp at hz
          subst hz
          exact ⟨y, dc, dov, hone, by simp⟩
        | succ j =>
          simp at hz
          obtain ⟨y', dc', dov', hone', hres'⟩ := hidx j z hz
          exact ⟨y', dc', dov', hone', by simpa using hres'⟩

/-- Inversion of `Targets_init`: a successful planning run is a successful
path scan followed by a successful classification, with the skip counter set
to count minus create minus overwrite. -/
theorem Targets_init_inv (env : Env) (input_list : List Path) (output : Path)
    (recursive force : Bool) (ext : String) (st : TargetsState)
    (h : Targets_init env input_list output recursive force ext = .ok st) :
    ∃ d0, init_file_paths env input_list output recursive ext = .ok d0 ∧
      classify_loop env force d0 =
        .ok (st.data, st.files_to_create, st.files_to_overwrite) ∧
      st.files_to_skip =
        st.data.length - st.files_to_create - st.files_to_overwrite := by
  unfold Targets_init at h
  cases hinit : init_file_paths env input_list output recursive ext with
  | error e => rw [hinit] at h; simp at h
  | ok d0 =>
    rw [hinit] at h
    dsimp only [exc_ok_bind] at h
    cases hcl : classify_loop env force d0 with
    | error e => rw [hcl] at h; simp at h
    | ok q =>
      obtain ⟨data, c, ov⟩ := q
      rw [hcl] at h
      dsimp only [exc_ok_bind] at h
      injection h with h'
      subst h'
      exact ⟨d0, rfl, hcl, rfl⟩

/-- When planning leaves nothing to create and nothing to overwrite, the
executor is never invoked, whatever the user answers. -/
theorem runMain_no_convert (env : Env) (input_list : List Path) (output : Path)
    (recursive force : Bool) (ext : String) (preset_args : List (String × String))
    (user_yes : Bool) (st : TargetsState)
    (h : Targets_init env input_list output recursive force ext = .ok st)
    (hc : st.files_to_create = 0) (hov : st.files_to_overwrite = 0) :
    ∀ (st₂ : TargetsState) (r : ConvRun),
      runMain env input_list output recursive force ext preset_args user_yes ≠
        RunOutcome.converted st₂ r := by
  intro st₂ r hcontra
  unfold runMain at hcontra
  by_cases hdir : isDir env.fs output = true
  · rw [h] at hcontra
    by_cases hz : st.data.length = 0 <;>
      by_cases hsk : st.files_to_skip = 0 <;>
        simp [hdir, hz, hsk, ask_for_confirmation, hc, hov] at hcontra
  · simp only [Bool.not_eq_true] at hdir
    simp [hdir] at hcontra

/-! ### Claim C8 -/

/-- C8: after any successful planning run the three counters add up to the
total target count, and when both the create and overwrite counters are zero
the run never invokes the executor, whatever the user answers. -/
theorem claim_C8 (env : Env) (input_list : List Path) (output : Path)
    (recursive force : Bool) (ext : String) (st : TargetsState)
    (h : Targets_init env input_list output recursive force ext = .ok st) :
    st.files_to_create + st.files_to_overwrite + st.files_to_skip =
      st.data.length ∧
    (st.files_to_create = 0 → st.files_to_overwrite = 0 →
      ∀ (preset_args : List (String × String)) (user_yes : Bool)
        (st₂ : TargetsState) (r : ConvRun),
        runMain env input_list output recursive force ext preset_args user_yes ≠
          RunOutcome.converted st₂ r) := by
  obtain ⟨d0, hinit, hcl, hskip⟩ :=
    Targets_init_inv env input_list output recursive force ext st h
  obtain ⟨hlen, hle, -⟩ := classify_loop_get env force d0 _ _ _ hcl
  constructor
  · rw [hskip, hlen] at *
    omega
  · intro hc hov preset_args user_yes st₂ r
    exact runMain_no_convert env input_list output recursive force ext
      preset_args user_yes st h hc hov st₂ r

/-- Witness for C8: the counters of the concrete demo planning run (one Skip,
one Create) add up to its two targets. -/
theorem claim_C8_witness :
    Targets_init demo_env [["videos"]] ["out"] false false ".mp4" =
      .ok demo_plan_state ∧
    demo_plan_state.files_to_create + demo_plan_state.files_to_overwrite +
      demo_plan_state.files_to_skip = demo_plan_state.data.length :=
  ⟨rfl,
    (claim_C8 demo_env [["videos"]] ["out"] false false ".mp4"
      demo_plan_state rfl).1⟩

/-! ### Claim C1 -/

/-- C1: for every planned target, the action matches the classification
table: a probe failure forces Skip with the error message recorded,
regardless of existence and force; on probe success the action is Create iff
the output does not exist, Overwrite iff it exists and force is set, and
Skip iff it exists and force is unset — and the classification of a target
depends only on that target, not on its position or neighbours. -/
theorem claim_C1 (env : Env) (force : Bool) (l res : List Target) (c ov : Nat)
    (h : classify_loop env force l = .ok (res, c, ov))
    (i : Nat) (x y : Target) (hx : l[i]? = some x) (hy : res[i]? = some y) :
    (∀ msg args, get_video_duration_in_sec env x.input_path =
        .error (PyExc.ffmpegError msg args) →
      y.action = Action.Skip ∧
        ∃ tail, split_colon_tail msg = .ok tail ∧ y.error_msg = tail) ∧
    (∀ d, get_video_duration_in_sec env x.input_path = .ok d →
      (y.action = Action.Create ↔ x.output_exists = false) ∧
      (y.action = Action.Overwrite ↔ (x.output_exists = true ∧ force = true)) ∧
      (y.action = Action.Skip ↔ (x.output_exists = true ∧ force = false))) ∧
    (∀ (l₂ res₂ : List Target) (c₂ ov₂ j : Nat),
      classify_loop env force l₂ = .ok (res₂, c₂, ov₂) → l₂[j]? = some x →
      res₂[j]? = some y) := by
  obtain ⟨-, -, hidx⟩ := classify_loop_get env force l res c ov h
  obtain ⟨y', dc, dov, hone, hy'⟩ := hidx i x hx
  rw [hy] at hy'
  injection hy' with hyy
  subst hyy
  refine ⟨?_, ?_, ?_⟩
  · intro msg args hp
    cases hs : split_colon_tail msg with
    | error e =>
      have hbad : classify_one env force x = .error e := by
        unfold classify_one
        dsimp only
        rw [hp]
        dsimp only
        rw [hs]
      rw [hbad] at hone
      simp at hone
    | ok tail =>
      have heq := classify_one_probe_err env force x msg args tail hp hs
      rw [heq] at hone
      injection hone with h'
      injection h' with ha hb
      subst ha
      exact ⟨rfl, tail, rfl, rfl⟩
  · intro d hp
    have heq := classify_one_probe_ok env force x d hp
    rw [heq] at hone
    injection hone with h'
    cases hex : x.output_exists <;> cases hf : force <;>
      simp [hex, hf] at h' <;>
      obtain ⟨hrec, -, -⟩ := h' <;>
      subst hrec <;>
      exact ⟨by simp [hex, hf], by simp [hex, hf], by simp [hex, hf]⟩
  · intro l₂ res₂ c₂ ov₂ j hcl₂ hx₂
    obtain ⟨-, -, hidx₂⟩ := classify_loop_get env force l₂ res₂ c₂ ov₂ hcl₂
    obtain ⟨y₂, dc₂, dov₂, hone₂, hy₂⟩ := hidx₂ j x hx₂
    rw [hone] at hone₂
    injection hone₂ with h'
    injection h' with ha hb
    subst ha
    exact hy₂

/-- Witness for C1: in the demo classification run, the `b.mov` target (probe
succeeds with duration 10, output absent, force unset) is classified Create,
and the table's three equivalences hold for it. -/
theorem claim_C1_witness :
    (classify_loop demo_env false demo_d0 = .ok (demo_plan_state.data, 1, 0) ∧
     demo_d0[1]? = some target_b0 ∧
     demo_plan_state.data[1]? = some target_b1 ∧
     get_video_duration_in_sec demo_env target_b0.input_path = .ok 10) ∧
    ((target_b1.action = Action.Create ↔ target_b0.output_exists = false) ∧
     (target_b1.action = Action.Overwrite ↔
       (target_b0.output_exists = true ∧ false = true)) ∧
     (target_b1.action = Action.Skip ↔
       (target_b0.output_exists = true ∧ false = false))) :=
  ⟨⟨rfl, rfl, rfl, rfl⟩,
    (claim_C1 demo_env false demo_d0 demo_plan_state.data 1 0 rfl 1
      target_b0 target_b1 rfl rfl).2.1 10 rfl⟩

/-! ### Claim C3 -/

/-- Counterexample to C3 as stated: a probe failure that is not an
`FFmpegError` — here ffprobe output that `json.loads` cannot decode — is not
caught by the per-target handler (`except FFmpegError`); the classification
loop aborts with the exception instead of forcing the affected target to
Skip and planning the remaining targets. -/
theorem claim_C3_counterexample :
    get_video_duration_in_sec malformed_env target_bad.input_path =
      .error PyExc.jsonDecodeError ∧
    classify_loop malformed_env false [target_bad, target_b0] =
      .error PyExc.jsonDecodeError :=
  ⟨rfl, rfl⟩

/-- C3 amended: a probe failure is recovered per-target only when it is an
`FFmpegError` (the tool itself reporting failure) whose message contains a
colon: then the target is forced to Skip with the lstripped message part
after the first colon stored, its duration left at its initial value, and
planning continues with the remaining targets unchanged.  Other probe
failures (tool not found, malformed output, missing stream or duration
field, or a colon-less message) propagate and abort planning. -/
theorem claim_C3_amended (env : Env) (force : Bool) (x : Target)
    (rest : List Target) (msg : String) (args : List String) (tail : String)
    (hp : get_video_duration_in_sec env x.input_path =
      .error (PyExc.ffmpegError msg args))
    (hs : split_colon_tail msg = .ok tail) :
    classify_loop env force (x :: rest) =
      (classify_loop env force rest).map
        (fun r => ({ x with action := Action.Skip, error_msg := tail } :: r.1,
          r.2)) := by
  have heq := classify_one_probe_err env force x msg args tail hp hs
  simp only [classify_loop]
  rw [heq]
  dsimp only [exc_ok_bind]
  cases classify_loop env force rest with
  | error e => rfl
  | ok q =>
    obtain ⟨res, c, ov⟩ := q
    simp

/-- Witness for the amended C3: a concrete ffprobe `FFmpegError` on `bad.mov`
is caught, the message tail is stored, and the loop continues. -/
theorem claim_C3_witness :
    (get_video_duration_in_sec ffmpeg_err_env target_bad.input_path =
      .error (PyExc.ffmpegError "bad.mov: Invalid data found when processing input"
        ["ffprobe", "bad.mov"]) ∧
     split_colon_tail "bad.mov: Invalid data found when processing input" =
       .ok "Invalid data found when processing input") ∧
    classify_loop ffmpeg_err_env false (target_bad :: [target_b0]) =
      (classify_loop ffmpeg_err_env false [target_b0]).map
        (fun r =>
          ({ target_bad with
              action := Action.Skip,
              error_msg := "Invalid data found when processing input" } :: r.1,
            r.2)) :=
  ⟨⟨rfl, rfl⟩,
    claim_C3_amended ffmpeg_err_env false target_bad [target_b0]
      "bad.mov: Invalid data found when processing input" ["ffprobe", "bad.mov"]
      "Invalid data found when processing input" rfl rfl⟩

/-! ### Claim C7 -/

/-- An error raised while processing later input specifications propagates
past any successfully processed earlier specifications. -/
theorem init_file_paths_error (env : Env) (out : Path) (recursive : Bool)
    (ext : String) (e : PyExc) : ∀ (pre : List Path) (post : List Path) (l : List Target),
    init_file_paths env pre out recursive ext = .ok l →
    init_file_paths env post out recursive ext = .error e →
    init_file_paths env (pre ++ post) out recursive ext = .error e
  | [], _post, _l, _hpre, hpost => hpost
  | pt :: pre', post, l, hpre, hpost => by
    have hrec := fun (ts : List Target)
        (hi : init_file_paths env pre' out recursive ext = .ok ts) =>
      init_file_paths_error env out recursive ext e pre' post ts hi hpost
    rw [List.cons_append]
    simp only [init_file_paths] at hpre ⊢
    cases hres : env.fs.resolve pt with
    | none => rw [hres] at hpre; simp at hpre
    | some nd =>
      rw [hres] at hpre
      cases nd with
      | file =>
        dsimp only at hpre ⊢
        cases hg : generate_target env pt.dropLast out pt ext with
        | error e' => rw [hg] at hpre; simp at hpre
        | ok t =>
          rw [hg] at hpre
          cases hi : init_file_paths env pre' out recursive ext with
          | error e' => rw [hi] at hpre; simp at hpre
          | ok ts => rw [hrec ts hi]; rfl
      | dir es =>
        dsimp only at hpre ⊢
        cases hg : gen_targets env pt out ext
            (get_list_off_files_in_directory pt recursive es) with
        | error e' => rw [hg] at hpre; simp at hpre
        | ok ts =>
          rw [hg] at hpre
          cases hi : init_file_paths env pre' out recursive ext with
          | error e' => rw [hi] at hpre; simp at hpre
          | ok ts' => rw [hrec ts' hi]; rfl

/-- C7: an input specification that resolves to neither a file nor a
directory makes planning fail with that specification's own fatal message
(post-dating specs are never reached), and the whole run ends with exit
status 1 before any conversion work. -/
theorem claim_C7 (env : Env) (pre post : List Path) (p out : Path)
    (recursive force : Bool) (ext : String) (preset_args : List (String × String))
    (user_yes : Bool) (l : List Target)
    (hout : isDir env.fs out = true)
    (hpre : init_file_paths env pre out recursive ext = .ok l)
    (hp : env.fs.resolve p = none) :
    init_file_paths env (pre ++ p :: post) out recursive ext =
      .error (PyExc.fatal ("input path \"" ++ String.intercalate "/" p ++
        "\" does not exist")) ∧
    runMain env (pre ++ p :: post) out recursive force ext preset_args user_yes =
      RunOutcome.fatal 1 ("input path \"" ++ String.intercalate "/" p ++
        "\" does not exist") := by
  have hbad : init_file_paths env (p :: post) out recursive ext =
      .error (PyExc.fatal ("input path \"" ++ String.intercalate "/" p ++
        "\" does not exist")) := by
    simp [init_file_paths, hp]
  have hall := init_file_paths_error env out recursive ext _ pre (p :: post) l hpre hbad
  refine ⟨hall, ?_⟩
  simp [runMain, hout, Targets_init, hall]

/-- Witness for C7: with one good file spec before it, the unresolvable spec
`nope` aborts the demo run with its own fatal message. -/
theorem claim_C7_witness :
    (isDir demo_fs ["out"] = true ∧
      init_file_paths demo_env [["lone.mov"]] ["out"] false ".mp4" =
        .ok [{ input_path := ["lone.mov"], output_path := ["out", "lone.mp4"],
               output_exists := false }] ∧
      demo_env.fs.resolve ["nope"] = none) ∧
    runMain demo_env ([["lone.mov"]] ++ [["nope"]]) ["out"] false false ".mp4" [] true =
      RunOutcome.fatal 1 ("input path \"" ++ String.intercalate "/" ["nope"] ++
        "\" does not exist") :=
  ⟨⟨rfl, rfl, rfl⟩,
    (claim_C7 demo_env [["lone.mov"]] [] ["nope"] ["out"] false false ".mp4" [] true
      [{ input_path := ["lone.mov"], output_path := ["out", "lone.mp4"],
         output_exists := false }] rfl rfl rfl).2⟩

/-- Witness for C10: the general rejection clause applied at a concrete
dot-less extension. -/
theorem claim_C10_witness :
    ("mp4" ≠ "" ∧ starts_with_dot "mp4" = false) ∧
      with_suffix "a" "mp4" = .error PyExc.valueError :=
  ⟨⟨by decide, by decide⟩, claim_C10.2.2 "a" "mp4" (by decide) (by decide)⟩

/-! ### Claim C5 -/

/-- The executor loop attempts exactly the non-Skip targets, in order, with
one invocation each — independent of which conversions fail — and logs
exactly the failed attempts' (message, arguments) pairs, in order. -/
theorem do_convert_loop_runs (env : Env) (preset_args : List (String × String)) :
    ∀ (l : List Target) (acc : ℚ),
    (do_convert_loop env preset_args l acc).2.1 =
      (l.filter (fun t => t.action != Action.Skip)).map (mk_ffmpeg preset_args) ∧
    (do_convert_loop env preset_args l acc).2.2 =
      (l.filter (fun t => t.action != Action.Skip)).filterMap
        (fun t => (env.convert t.input_path).failure)
  | [], _acc => ⟨rfl, rfl⟩
  | t :: rest, acc => by
    by_cases hskip : t.action = Action.Skip
    · rw [show do_convert_loop env preset_args (t :: rest) acc =
        do_convert_loop env preset_args rest acc from by
          simp only [do_convert_loop, if_pos hskip]]
      obtain ⟨h1, h2⟩ := do_convert_loop_runs env preset_args rest acc
      simp [List.filter_cons, hskip, h1, h2]
    · have hne : (t.action != Action.Skip) = true := by
        simp [hskip]
      cases hfail : (env.convert t.input_path).failure with
      | none =>
        obtain ⟨h1, h2⟩ :=
          do_convert_loop_runs env preset_args rest (acc + t.duration_sec)
        rw [show do_convert_loop env preset_args (t :: rest) acc =
          ((env.convert t.input_path).ticks.map (fun s => acc + s) ++
              (do_convert_loop env preset_args rest (acc + t.duration_sec)).1,
            mk_ffmpeg preset_args t ::
              (do_convert_loop env preset_args rest (acc + t.duration_sec)).2.1,
            (do_convert_loop env preset_args rest (acc + t.duration_sec)).2.2)
          from by
            simp only [do_convert_loop, if_neg hskip]
            rw [hfail]]
        simp [List.filter_cons, hne, h1, h2, hfail]
      | some pr =>
        obtain ⟨h1, h2⟩ := do_convert_loop_runs env preset_args rest acc
        rw [show do_convert_loop env preset_args (t :: rest) acc =
          ((env.convert t.input_path).ticks.map (fun s => acc + s) ++
              (do_convert_loop env preset_args rest acc).1,
            mk_ffmpeg preset_args t ::
              (do_convert_loop env preset_args rest acc).2.1,
            pr :: (do_convert_loop env preset_args rest acc).2.2)
          from by
            simp only [do_convert_loop, if_neg hskip]
            rw [hfail]]
        simp [List.filter_cons, hne, h1, h2, hfail]

/-- C5: the executor attempts every non-Skip target exactly once, in order —
a converter failure on one target does not remove any later target from the
attempt list and no target appears twice (no retry) — and each reported
failure is logged with the tool's message and invocation arguments. -/
theorem claim_C5 (env : Env) (preset_args : List (String × String))
    (targets : List Target) :
    (doConvert env preset_args targets).attempts =
      (targets.filter (fun t => t.action != Action.Skip)).map
        (mk_ffmpeg preset_args) ∧
    (doConvert env preset_args targets).fail_logs =
      (targets.filter (fun t => t.action != Action.Skip)).filterMap
        (fun t => (env.convert t.input_path).failure) :=
  do_convert_loop_runs env preset_args targets 0

/-! ### Claim C9 -/

/-- C9: every executed (non-Skip) target — Create-classified just as much as
Overwrite-classified — is handed to the converter with the global
overwrite-allowed option `-y`; consequently a file appearing at the output
path between planning and execution is overwritten even for a Create target. -/
theorem claim_C9 (env : Env) (preset_args : List (String × String))
    (targets : List Target) (t : Target)
    (ht : t ∈ targets) (hns : t.action ≠ Action.Skip) :
    mk_ffmpeg preset_args t ∈ (doConvert env preset_args targets).attempts ∧
    (mk_ffmpeg preset_args t).global_options = ["y"] ∧
    (∀ inv ∈ (doConvert env preset_args targets).attempts,
      inv.global_options = ["y"]) := by
  obtain ⟨h1, -⟩ := do_convert_loop_runs env preset_args targets 0
  have hmem : t ∈ targets.filter (fun t => t.action != Action.Skip) := by
    rw [List.mem_filter]
    exact ⟨ht, by simp [hns]⟩
  refine ⟨?_, rfl, ?_⟩
  · show mk_ffmpeg preset_args t ∈ (do_convert_loop env preset_args targets 0).2.1
    rw [h1]
    exact List.mem_map_of_mem (mk_ffmpeg preset_args) hmem
  · intro inv hinv
    rw [show (doConvert env preset_args targets).attempts =
      (do_convert_loop env preset_args targets 0).2.1 from rfl, h1] at hinv
    obtain ⟨t', -, ht'⟩ := List.mem_map.mp hinv
    rw [← ht']
    rfl

/-- Witness for C9: the Create-classified `b.mov` target of the demo run is
attempted with the `-y` overwrite option. -/
theorem claim_C9_witness :
    (target_b1 ∈ demo_plan_state.data ∧ target_b1.action ≠ Action.Skip) ∧
    (mk_ffmpeg [] target_b1 ∈
      (doConvert demo_env [] demo_plan_state.data).attempts ∧
     (mk_ffmpeg [] target_b1).global_options = ["y"]) :=
  ⟨⟨by simp [demo_plan_state, target_b1, target_b0], by simp [target_b1, target_b0]⟩,
    ⟨(claim_C9 demo_env [] demo_plan_state.data target_b1
        (by simp [demo_plan_state, target_b1, target_b0])
        (by simp [target_b1, target_b0])).1,
     (claim_C9 demo_env [] demo_plan_state.data target_b1
        (by simp [demo_plan_state, target_b1, target_b0])
        (by simp [target_b1, target_b0])).2.1⟩⟩

/-! ### Claim C4 -/

/-- Unfolding equation for `nondecreasing` on two or more elements. -/
theorem nondec_cons_cons (a b : ℚ) (l : List ℚ) :
    nondecreasing (a :: b :: l) = (decide (a ≤ b) && nondecreasing (b :: l)) := rfl

/-- Appending a non-decreasing run that dominates everything on the left
keeps the stream non-decreasing. -/
theorem nondec_append : ∀ (l₁ l₂ : List ℚ),
    nondecreasing l₁ = true → nondecreasing l₂ = true →
    (∀ a ∈ l₁, ∀ b ∈ l₂, a ≤ b) → nondecreasing (l₁ ++ l₂) = true
  | [], _l₂, _, h₂, _ => h₂
  | [a], l₂, _, h₂, hle => by
    cases l₂ with
    | nil => rfl
    | cons b l₂' =>
      rw [List.singleton_append, nondec_cons_cons, h₂]
      simp [hle a (by simp) b (by simp)]
  | a :: a' :: l₁', l₂, h₁, h₂, hle => by
    rw [nondec_cons_cons] at h₁
    obtain ⟨hab, h₁'⟩ := by simpa using h₁
    have hrec := nondec_append (a' :: l₁') l₂ h₁' h₂
      (fun x hx b hb => hle x (List.mem_cons_of_mem a hx) b hb)
    rw [List.cons_append, List.cons_append, nondec_cons_cons]
    rw [List.cons_append] at hrec
    simp [hab, hrec]

/-- Shifting a non-decreasing stream by a constant keeps it non-decreasing. -/
theorem nondec_map_add (c : ℚ) : ∀ (l : List ℚ),
    nondecreasing l = true → nondecreasing (l.map (fun s => c + s)) = true
  | [], _ => rfl
  | [_], _ => rfl
  | a :: b :: l, h => by
    rw [nondec_cons_cons] at h
    obtain ⟨hab, h'⟩ := by simpa using h
    have hrec : nondecreasing ((c + b) :: List.map (fun s => c + s) l) = true := by
      simpa using nondec_map_add c (b :: l) h'
    have hgoal : nondecreasing ((c + a) :: (c + b) ::
        List.map (fun s => c + s) l) = true := by
      rw [nondec_cons_cons, hrec]
      simpa using add_le_add_left hab c
    simpa using hgoal

theorem total_time_sec_cons_skip (t : Target) (l : List Target)
    (h : t.action = Action.Skip) :
    total_time_sec (t :: l) = total_time_sec l := by
  simp [total_time_sec, List.filter_cons, h]

theorem total_time_sec_cons (t : Target) (l : List Target)
    (h : t.action ≠ Action.Skip) :
    total_time_sec (t :: l) = t.duration_sec + total_time_sec l := by
  simp [total_time_sec, List.filter_cons, h]

theorem total_time_sec_nonneg (l : List Target)
    (h : ∀ t ∈ l, 0 ≤ t.duration_sec) : 0 ≤ total_time_sec l := by
  apply List.sum_nonneg
  intro x hx
  obtain ⟨t, ht, hteq⟩ := List.mem_map.mp hx
  rw [← hteq]
  exact h t (List.mem_filter.mp ht).1

/-- Core bound for the executor loop: when every non-Skip target converts
successfully with non-decreasing ticks bounded by its duration, the emitted
overall values are non-decreasing and stay between the accumulated base and
the base plus the remaining total duration. -/
theorem do_convert_loop_events (env : Env) (preset_args : List (String × String)) :
    ∀ (l : List Target) (acc : ℚ),
    (∀ t ∈ l, t.action ≠ Action.Skip →
      nondecreasing (env.convert t.input_path).ticks = true ∧
      (∀ q ∈ (env.convert t.input_path).ticks, 0 ≤ q ∧ q ≤ t.duration_sec) ∧
      (env.convert t.input_path).failure = none) →
    (∀ t ∈ l, 0 ≤ t.duration_sec) →
    nondecreasing (do_convert_loop env preset_args l acc).1 = true ∧
    ∀ e ∈ (do_convert_loop env preset_args l acc).1,
      acc ≤ e ∧ e ≤ acc + total_time_sec l
  | [], acc, _, _ => ⟨rfl, by simp [do_convert_loop]⟩
  | t :: rest, acc, hticks, hdur => by
    have hticks_rest := fun t' ht' => hticks t' (List.mem_cons_of_mem t ht')
    have hdur_rest : ∀ t' ∈ rest, 0 ≤ t'.duration_sec :=
      fun t' ht' => hdur t' (List.mem_cons_of_mem t ht')
    have htotal_rest : 0 ≤ total_time_sec rest := total_time_sec_nonneg rest hdur_rest
    by_cases hskip : t.action = Action.Skip
    · rw [show do_convert_loop env preset_args (t :: rest) acc =
        do_convert_loop env preset_args rest acc from by
          simp only [do_convert_loop, if_pos hskip]]
      rw [total_time_sec_cons_skip t rest hskip]
      exact do_convert_loop_events env preset_args rest acc hticks_rest hdur_rest
    · obtain ⟨htick_mono, htick_bound, hfail⟩ := hticks t (by simp) hskip
      have hdt : 0 ≤ t.duration_sec := hdur t (by simp)
      rw [show do_convert_loop env preset_args (t :: rest) acc =
        ((env.convert t.input_path).ticks.map (fun s => acc + s) ++
            (do_convert_loop env preset_args rest (acc + t.duration_sec)).1,
          mk_ffmpeg preset_args t ::
            (do_convert_loop env preset_args rest (acc + t.duration_sec)).2.1,
          (do_convert_loop env preset_args rest (acc + t.duration_sec)).2.2)
        from by
          simp only [do_convert_loop, if_neg hskip]
          rw [hfail]]
      rw [total_time_sec_cons t rest hskip]
      obtain ⟨ihmono, ihbound⟩ := do_convert_loop_events env preset_args rest
        (acc + t.duration_sec) hticks_rest hdur_rest
      have hev_bound : ∀ e ∈ (env.convert t.input_path).ticks.map (fun s => acc + s),
          acc ≤ e ∧ e ≤ acc + t.duration_sec := by
        intro e he
        obtain ⟨q, hq, hqe⟩ := List.mem_map.mp he
        obtain ⟨hq0, hqd⟩ := htick_bound q hq
        constructor
        · rw [← hqe]; linarith
        · rw [← hqe]; linarith
      constructor
      · apply nondec_append
        · exact nondec_map_add acc _ htick_mono
        · exact ihmono
        · intro a ha b hb
          have h1 := (hev_bound a ha).2
          have h2 := (ihbound b hb).1
          linarith
      · intro e he
        rcases List.mem_append.mp he with hl | hr
        · obtain ⟨h1, h2⟩ := hev_bound e hl
          exact ⟨h1, by linarith⟩
        · obtain ⟨h1, h2⟩ := ihbound e hr
          constructor
          · linarith
          · linarith

/-- Counterexample to C4 as stated: with a conversion failure the overall
progress value stream is not monotonically non-decreasing.  The failed
target's duration is never folded into the accumulated base (only
`on_completed` adds it), so the next target's first tick drops the overall
value from `0 + 7` back to `0 + 1`. -/
theorem claim_C4_counterexample :
    (doConvert failing_env [] [fail_target_1, fail_target_2]).overall_events =
      [0 + 7, 0 + 1, total_time_sec [fail_target_1, fail_target_2]] ∧
    nondecreasing
      (doConvert failing_env [] [fail_target_1, fail_target_2]).overall_events
      = false ∧
    ¬ ((0 + 7 : ℚ) ≤ 0 + 1) := by
  have hev : (doConvert failing_env [] [fail_target_1, fail_target_2]).overall_events
      = [0 + 7, 0 + 1, total_time_sec [fail_target_1, fail_target_2]] := rfl
  have h71 : decide ((0 + 7 : ℚ) ≤ 0 + 1) = false := decide_eq_false (by norm_num)
  refine ⟨hev, ?_, by norm_num⟩
  rw [hev, nondec_cons_cons, h71]
  rfl

/-- C4 amended: when no conversion fails and every executed target's progress
ticks are non-decreasing and stay within `[0, duration]`, the overall
progress values are monotonically non-decreasing; independently of any of
that — in particular in runs where conversions fail — the final overall
event always carries the full total duration, i.e. fraction exactly 1. -/
theorem claim_C4_amended (env : Env) (preset_args : List (String × String))
    (targets : List Target)
    (hticks : ∀ t ∈ targets, t.action ≠ Action.Skip →
      nondecreasing (env.convert t.input_path).ticks = true ∧
      (∀ q ∈ (env.convert t.input_path).ticks, 0 ≤ q ∧ q ≤ t.duration_sec) ∧
      (env.convert t.input_path).failure = none)
    (hdur : ∀ t ∈ targets, 0 ≤ t.duration_sec) :
    nondecreasing (doConvert env preset_args targets).overall_events = true ∧
    (∀ (env₂ : Env) (preset_args₂ : List (String × String))
      (targets₂ : List Target),
      (doConvert env₂ preset_args₂ targets₂).overall_events.getLast? =
        some (total_time_sec targets₂)) ∧
    (0 < total_time_sec targets →
      ((doConvert env preset_args targets).overall_events.map
        (fun e => e / total_time_sec targets)).getLast? = some 1) := by
  obtain ⟨hmono, hbound⟩ :=
    do_convert_loop_events env preset_args targets 0 hticks hdur
  have hev : (doConvert env preset_args targets).overall_events =
      (do_convert_loop env preset_args targets 0).1 ++
        [total_time_sec targets] := rfl
  refine ⟨?_, ?_, ?_⟩
  · rw [hev]
    refine nondec_append _ [total_time_sec targets] hmono rfl ?_
    intro a ha b hb
    simp only [List.mem_singleton] at hb
    subst hb
    have h2 := (hbound a ha).2
    linarith
  · intro env₂ pa₂ targets₂
    show ((do_convert_loop env₂ pa₂ targets₂ 0).1 ++
      [total_time_sec targets₂]).getLast? = _
    rw [List.getLast?_concat]
  · intro hpos
    rw [hev, List.map_append]
    simp only [List.map_cons, List.map_nil]
    rw [List.getLast?_concat]
    rw [div_self (ne_of_gt hpos)]

/-- Witness for the amended C4: the demo run (one Skip target, one Create
target of duration 10 with a single tick at 3, no failures) has a
non-decreasing overall stream. -/
theorem claim_C4_witness :
    ((∀ t ∈ demo_plan_state.data, t.action ≠ Action.Skip →
      nondecreasing (demo_env.convert t.input_path).ticks = true ∧
      (∀ q ∈ (demo_env.convert t.input_path).ticks, 0 ≤ q ∧ q ≤ t.duration_sec) ∧
      (demo_env.convert t.input_path).failure = none) ∧
     (∀ t ∈ demo_plan_state.data, 0 ≤ t.duration_sec)) ∧
    nondecreasing (doConvert demo_env [] demo_plan_state.data).overall_events
      = true :=
  ⟨⟨by decide, by decide⟩,
    (claim_C4_amended demo_env [] demo_plan_state.data
      (by decide) (by decide)).1⟩

end FfmpegBatch